import Mathlib

/-!
Verification development for the Argus crowd-monitoring core: a shallow
embedding of the SORT tracker (src/engine/tracking.py) and the analytics
engine (src/engine/analytics.py), together with theorems about track
lifecycle, ID management, geometry conversions and the three risk metrics.

Numeric conventions: Python/NumPy floats are embedded as exact rationals
wherever the code's arithmetic is field arithmetic; functions whose result
depends on IEEE special values (NaN/inf) are additionally embedded over an
explicit `PyFloat` type; functions using sqrt and trigonometry are embedded
over the reals.
-/

namespace Argus

/-! ## Configuration constants (src/config.py) -/

def VIDEO_RESOLUTION_W : ℚ := 640
def VIDEO_RESOLUTION_H : ℚ := 480
def DENSITY_GRID_ROWS : ℕ := 10
def DENSITY_GRID_COLS : ℕ := 10
def DENSITY_THRESHOLD_WARNING : ℚ := 4
def DENSITY_THRESHOLD_CRITICAL : ℚ := 6
def COHERENCE_THRESHOLD_WARNING : ℚ := 40
def COHERENCE_THRESHOLD_CRITICAL : ℚ := 65
def KE_SPIKE_FACTOR : ℚ := 2
def KE_MOVING_AVG_WINDOW : ℕ := 45

/-- Status levels STATUS_NORMAL / STATUS_WARNING / STATUS_CRITICAL
(string constants in src/config.py, embedded as an enumeration). -/
inductive Status where
  | NORMAL
  | WARNING
  | CRITICAL
deriving DecidableEq, Repr

/-! ## CrowdAnalytics.determine_status (src/engine/analytics.py lines 166-189) -/

/-- Embedding of `CrowdAnalytics.determine_status(density, coherence, ke_spike)`:
first checks the critical conditions, then the warning conditions,
otherwise returns NORMAL. -/
def determine_status (density coherence : ℚ) (ke_spike : Bool) : Status :=
  if DENSITY_THRESHOLD_CRITICAL ≤ density ∨
     COHERENCE_THRESHOLD_CRITICAL ≤ coherence ∨
     ke_spike = true then
    Status.CRITICAL
  else if DENSITY_THRESHOLD_WARNING ≤ density ∨
          COHERENCE_THRESHOLD_WARNING ≤ coherence then
    Status.WARNING
  else
    Status.NORMAL

/-- C3: the status classifier returns CRITICAL iff
`max_density ≥ density_critical ∨ coherence_std ≥ coherence_critical ∨ is_spike`;
otherwise WARNING iff `max_density ≥ density_warning ∨ coherence_std ≥ coherence_warning`;
otherwise NORMAL; and a kinetic-energy spike alone forces CRITICAL. -/
theorem determine_status_spec (d c : ℚ) (sp : Bool) :
    (determine_status d c sp = Status.CRITICAL ↔
      (DENSITY_THRESHOLD_CRITICAL ≤ d ∨ COHERENCE_THRESHOLD_CRITICAL ≤ c ∨ sp = true)) ∧
    (determine_status d c sp = Status.WARNING ↔
      (¬ (DENSITY_THRESHOLD_CRITICAL ≤ d ∨ COHERENCE_THRESHOLD_CRITICAL ≤ c ∨ sp = true) ∧
        (DENSITY_THRESHOLD_WARNING ≤ d ∨ COHERENCE_THRESHOLD_WARNING ≤ c))) ∧
    (determine_status d c sp = Status.NORMAL ↔
      (¬ (DENSITY_THRESHOLD_CRITICAL ≤ d ∨ COHERENCE_THRESHOLD_CRITICAL ≤ c ∨ sp = true) ∧
        ¬ (DENSITY_THRESHOLD_WARNING ≤ d ∨ COHERENCE_THRESHOLD_WARNING ≤ c))) ∧
    (sp = true → determine_status d c sp = Status.CRITICAL) := by
  unfold determine_status
  split_ifs with h1 h2 <;>
    refine ⟨?_, ?_, ?_, ?_⟩ <;> simp_all

/-- Witness for C3: a spike with zero density and coherence is CRITICAL. -/
theorem determine_status_spec_witness :
    determine_status 0 0 true = Status.CRITICAL :=
  (determine_status_spec 0 0 true).2.2.2 rfl

/-! ## NumPy double scalars with IEEE special values

`convert_bbox_to_z` divides by the box height with no guard, and the
prediction loop of `Sort.update` tests `np.any(np.isnan(pos))`; both depend
on IEEE special values, so they are additionally embedded over an explicit
float type.  A value is an exact rational or NaN / +inf / -inf; negative
zero is collapsed into 0 (division of a nonzero value by 0 therefore signs
the infinity by the numerator, as IEEE does for +0 divisors, which is the
only zero arising in the inputs considered here). -/

inductive PyFloat where
  | fin (q : ℚ)
  | nan
  | inf
  | ninf
deriving DecidableEq, Repr

/-- `np.isnan` on one scalar. -/
def PyFloat.isnan : PyFloat → Bool
  | nan => true
  | _ => false

/-- `np.isfinite` on one scalar (false on NaN and on both infinities). -/
def PyFloat.isfinite : PyFloat → Bool
  | fin _ => true
  | _ => false

/-- IEEE-style negation. -/
def PyFloat.neg : PyFloat → PyFloat
  | fin q => fin (-q)
  | nan => nan
  | inf => ninf
  | ninf => inf

/-- IEEE-style addition. -/
def PyFloat.add : PyFloat → PyFloat → PyFloat
  | fin a, fin b => fin (a + b)
  | fin _, inf => inf
  | fin _, ninf => ninf
  | inf, fin _ => inf
  | ninf, fin _ => ninf
  | inf, inf => inf
  | ninf, ninf => ninf
  | inf, ninf => nan
  | ninf, inf => nan
  | _, _ => nan

/-- IEEE-style subtraction. -/
def PyFloat.sub (a b : PyFloat) : PyFloat := a.add b.neg

/-- IEEE-style multiplication (`0 * inf = NaN`). -/
def PyFloat.mul : PyFloat → PyFloat → PyFloat
  | fin a, fin b => fin (a * b)
  | fin a, inf => if a = 0 then nan else if 0 < a then inf else ninf
  | fin a, ninf => if a = 0 then nan else if 0 < a then ninf else inf
  | inf, fin b => if b = 0 then nan else if 0 < b then inf else ninf
  | ninf, fin b => if b = 0 then nan else if 0 < b then ninf else inf
  | inf, inf => inf
  | ninf, ninf => inf
  | inf, ninf => ninf
  | ninf, inf => ninf
  | _, _ => nan

/-- IEEE-style division as NumPy performs it on double scalars: a nonzero
finite value divided by zero yields a signed infinity (with a runtime
warning, not an exception), `0/0` yields NaN. -/
def PyFloat.div : PyFloat → PyFloat → PyFloat
  | fin a, fin b =>
      if b = 0 then (if a = 0 then nan else if 0 < a then inf else ninf)
      else fin (a / b)
  | fin _, inf => fin 0
  | fin _, ninf => fin 0
  | inf, fin b => if 0 ≤ b then inf else ninf
  | ninf, fin b => if 0 ≤ b then ninf else inf
  | inf, inf => nan
  | inf, ninf => nan
  | ninf, inf => nan
  | ninf, ninf => nan
  | _, _ => nan

/-! ## KalmanBoxTracker.convert_bbox_to_z over floats
(src/engine/tracking.py lines 111-124) -/

/-- Embedding of `KalmanBoxTracker.convert_bbox_to_z(bbox)` over NumPy double
scalars, exactly as written in the source: `w = x2-x1`, `h = y2-y1`,
`x = x1 + w/2`, `y = y1 + h/2`, `s = w*h`, `r = w/h` — the division `w/h`
is NOT guarded against `h = 0`. Returns `(x, y, s, r)`. -/
def convert_bbox_to_z_py (b0 b1 b2 b3 : PyFloat) :
    PyFloat × PyFloat × PyFloat × PyFloat :=
  let w := b2.sub b0
  let h := b3.sub b1
  let x := b0.add (w.div (PyFloat.fin 2))
  let y := b1.add (h.div (PyFloat.fin 2))
  let s := w.mul h
  let r := w.div h
  (x, y, s, r)

/-- C7: evaluating the geometry conversion at the zero-height bbox
`[0, 0, 5, 0]` shows there is no division-by-zero guard: the aspect-ratio
component is computed as `5/0` and comes out as `+inf`, a non-finite value
that is stored in the new tracker's state vector rather than the
detection being skipped. -/
theorem convert_bbox_to_z_zero_height_unguarded :
    convert_bbox_to_z_py (PyFloat.fin 0) (PyFloat.fin 0) (PyFloat.fin 5) (PyFloat.fin 0) =
      (PyFloat.fin (5/2), PyFloat.fin 0, PyFloat.fin 0, PyFloat.inf) ∧
    (convert_bbox_to_z_py (PyFloat.fin 0) (PyFloat.fin 0) (PyFloat.fin 5)
        (PyFloat.fin 0)).2.2.2.isfinite = false := by
  constructor <;>
    norm_num [convert_bbox_to_z_py, PyFloat.sub, PyFloat.add, PyFloat.neg,
      PyFloat.div, PyFloat.mul, PyFloat.isfinite]

/-! ## The defensive removal pass of Sort.update
(src/engine/tracking.py lines 262-278)

The prediction loop pairs each tracker with its predicted position `pos`
(four float coordinates), collects into `to_del` (in ascending index
order) every index `t` with `np.any(np.isnan(pos))`, and afterwards
executes `for t in reversed(to_del): self.trackers.pop(t)`.  The tracker
payload is kept generic (`α`): the removal decision reads only `pos`,
never the tracker's age fields. -/

/-- Ascending list of indices whose entry satisfies a removal predicate, as
collected into `to_del` by the prediction loop of `Sort.update`. -/
def to_del {α : Type} (p : α → Bool) : List α → List ℕ
  | [] => []
  | x :: xs =>
      (if p x then [0] else []) ++ (to_del p xs).map (· + 1)

/-- `for t in reversed(idxs): trackers.pop(t)` — the last collected index is
popped first, so `List.foldr` applies the rightmost index to the original
list first. -/
def popReversed {β : Type} (l : List β) (idxs : List ℕ) : List β :=
  idxs.foldr (fun t acc => acc.eraseIdx t) l

/-- Collect-then-pop-in-reverse, the index bookkeeping idiom that
`Sort.update` uses twice (the NaN integrity pass and the dead-track pass). -/
def removeByPred {α : Type} (p : α → Bool) (l : List α) : List α :=
  popReversed l (to_del p l)

/-- Net effect of the defensive integrity check in `Sort.update`: remove
every (tracker, pos) entry whose pos contains a NaN. -/
def removeInvalid {α : Type} (l : List (α × List PyFloat)) :
    List (α × List PyFloat) :=
  removeByPred (fun x => x.2.any PyFloat.isnan) l

/-- Popping a list of indices all shifted by one leaves the head untouched. -/
theorem popReversed_cons_shift {β : Type} (x : β) (xs : List β) (I : List ℕ) :
    popReversed (x :: xs) (I.map (· + 1)) = x :: popReversed xs I := by
  induction I with
  | nil => rfl
  | cons i I ih =>
      simp only [List.map_cons, popReversed, List.foldr_cons] at *
      rw [ih]
      rfl

/-- The pop-in-reverse loop over the collected indices is exactly a filter
keeping the entries that do not satisfy the removal predicate, in order. -/
theorem removeByPred_eq_filter {α : Type} (p : α → Bool) (l : List α) :
    removeByPred p l = l.filter (fun x => ! p x) := by
  induction l with
  | nil => rfl
  | cons x xs ih =>
      by_cases h : p x
      · have hd : to_del p (x :: xs) = 0 :: (to_del p xs).map (· + 1) := by
          simp [to_del, h]
        have h1 : popReversed (x :: xs) (0 :: (to_del p xs).map (· + 1)) =
            (popReversed (x :: xs) ((to_del p xs).map (· + 1))).eraseIdx 0 := rfl
        rw [removeByPred, hd, h1, popReversed_cons_shift]
        simpa [List.filter_cons, h, removeByPred] using ih
      · have hd : to_del p (x :: xs) = (to_del p xs).map (· + 1) := by
          simp [to_del, h]
        rw [removeByPred, hd, popReversed_cons_shift]
        simpa [List.filter_cons, h, removeByPred] using ih

/-- Specialisation to the NaN integrity pass. -/
theorem removeInvalid_eq_filter {α : Type} (l : List (α × List PyFloat)) :
    removeInvalid l = l.filter (fun x => ! x.2.any PyFloat.isnan) :=
  removeByPred_eq_filter _ l

/-- C6 counterexample: a track whose predicted position contains `+inf`
(a non-finite value, but not a NaN) is NOT removed by the defensive
integrity pass — the code tests `np.isnan` only, so the claim that any
non-finite predicted state leads to removal in the same frame is false. -/
theorem inf_predicted_state_not_removed :
    ([PyFloat.inf, PyFloat.fin 0, PyFloat.fin 0, PyFloat.fin 0].any
        (fun v => ! v.isfinite) = true) ∧
    removeInvalid [((0 : ℕ), [PyFloat.inf, PyFloat.fin 0, PyFloat.fin 0, PyFloat.fin 0])] =
      [((0 : ℕ), [PyFloat.inf, PyFloat.fin 0, PyFloat.fin 0, PyFloat.fin 0])] := by
  constructor <;> rfl

/-- C6 (amended): a track whose predicted position contains a NaN is
removed by the integrity pass of the same frame, independently of the
age-based deletion rule (the decision reads only the predicted position,
never the payload); a track whose predicted position is NaN-free survives;
and the surviving entries are a sublist of the original list, each with its
payload and position unchanged. -/
theorem nan_predicted_state_removed {α : Type} (l : List (α × List PyFloat))
    (x : α × List PyFloat) (hx : x ∈ l) :
    (x.2.any PyFloat.isnan = true → x ∉ removeInvalid l) ∧
    (x.2.any PyFloat.isnan = false → x ∈ removeInvalid l) ∧
    (removeInvalid l).Sublist l := by
  rw [removeInvalid_eq_filter]
  refine ⟨?_, ?_, List.filter_sublist l⟩
  · intro h hmem
    have := List.of_mem_filter hmem
    simp [h] at this
  · intro h
    exact List.mem_filter.mpr ⟨hx, by simp [h]⟩

/-- Witness for the amended C6 theorem: with one NaN track and one healthy
track, the NaN track is removed and the healthy one survives unchanged. -/
theorem nan_predicted_state_removed_witness :
    (((0 : ℕ), [PyFloat.nan]) ∉
        removeInvalid [((0 : ℕ), [PyFloat.nan]), ((1 : ℕ), [PyFloat.fin 3])]) ∧
    (((1 : ℕ), [PyFloat.fin 3]) ∈
        removeInvalid [((0 : ℕ), [PyFloat.nan]), ((1 : ℕ), [PyFloat.fin 3])]) := by
  constructor
  · exact (nan_predicted_state_removed
      [((0 : ℕ), [PyFloat.nan]), ((1 : ℕ), [PyFloat.fin 3])]
      ((0 : ℕ), [PyFloat.nan]) (by simp)).1 (by rfl)
  · exact (nan_predicted_state_removed
      [((0 : ℕ), [PyFloat.nan]), ((1 : ℕ), [PyFloat.fin 3])]
      ((1 : ℕ), [PyFloat.fin 3]) (by simp)).2.1 (by rfl)

/-! ## CrowdAnalytics.calculate_crowd_density
(src/engine/analytics.py lines 36-73)

The function reads only each tracker's `bbox` field; it is embedded over the
list of bboxes.  Cell counts start from `np.zeros` and are only ever
incremented by 1, so the grid is embedded with ℕ-valued cells. -/

/-- A bounding box `[x1, y1, x2, y2]` with exact rational coordinates. -/
structure BBoxQ where
  x1 : ℚ
  y1 : ℚ
  x2 : ℚ
  y2 : ℚ
deriving DecidableEq, Repr, Inhabited

/-- Python `int()` on a float: truncation toward zero. -/
def pyInt (q : ℚ) : ℤ := if q < 0 then ⌈q⌉ else ⌊q⌋

/-- `cell_width = VIDEO_RESOLUTION[0] / grid_width` (640 / 10). -/
def cell_width : ℚ := VIDEO_RESOLUTION_W / (DENSITY_GRID_COLS : ℚ)

/-- `cell_height = VIDEO_RESOLUTION[1] / grid_height` (480 / 10). -/
def cell_height : ℚ := VIDEO_RESOLUTION_H / (DENSITY_GRID_ROWS : ℚ)

/-- `max(0, min(9, g))`, the clamp applied to a raw grid coordinate,
packaged into `Fin 10`. -/
def clamp10 (g : ℤ) : Fin 10 :=
  ⟨(max 0 (min 9 g)).toNat, by omega⟩

/-- Grid cell `(grid_y, grid_x)` of one tracker bbox: the bbox center is
divided by the cell extents, truncated with `int()`, and clamped into the
grid bounds. -/
def gridCell (b : BBoxQ) : Fin 10 × Fin 10 :=
  let center_x := (b.x1 + b.x2) / 2
  let center_y := (b.y1 + b.y2) / 2
  let grid_x := pyInt (center_x / cell_width)
  let grid_y := pyInt (center_y / cell_height)
  (clamp10 grid_y, clamp10 grid_x)

/-- The density grid after counting every tracker bbox, starting from the
all-zero grid: `density_grid[grid_y, grid_x] += 1` per tracker. -/
def densityGrid (bs : List BBoxQ) : Fin 10 × Fin 10 → ℕ :=
  bs.foldl (fun g b => Function.update g (gridCell b) (g (gridCell b) + 1))
    (fun _ => 0)

/-- `max_density = np.max(density_grid)`. -/
def max_density (bs : List BBoxQ) : ℕ :=
  Finset.univ.sup (densityGrid bs)

/-- Incrementing one cell raises the total mass by exactly one. -/
theorem sum_update_incr (g : Fin 10 × Fin 10 → ℕ) (c : Fin 10 × Fin 10) :
    (∑ p : Fin 10 × Fin 10, Function.update g c (g c + 1) p) =
      (∑ p : Fin 10 × Fin 10, g p) + 1 := by
  rw [Finset.sum_update_of_mem (Finset.mem_univ c)]
  rw [← Finset.sum_erase_add Finset.univ g (Finset.mem_univ c)]
  have : Finset.univ \ {c} = Finset.univ.erase c := by
    ext p
    simp [Finset.mem_erase, Finset.mem_sdiff]
  rw [this]
  ring

/-- Mass conservation along the fold, generalized over the starting grid. -/
theorem densityGrid_fold_mass (bs : List BBoxQ) :
    ∀ g : Fin 10 × Fin 10 → ℕ,
      (∑ p : Fin 10 × Fin 10,
        (bs.foldl (fun g b => Function.update g (gridCell b) (g (gridCell b) + 1)) g) p) =
      (∑ p : Fin 10 × Fin 10, g p) + bs.length := by
  induction bs with
  | nil => intro g; simp
  | cons b bs ih =>
      intro g
      simp only [List.foldl_cons, List.length_cons]
      rw [ih, sum_update_incr]
      ring

/-- C10: the density grid conserves mass — cell counts are natural numbers,
their total equals the number of input tracks (each track increments exactly
one clamped cell), and the maximum cell value is at most the person count. -/
theorem densityGrid_mass_conservation (bs : List BBoxQ) :
    (∑ p : Fin 10 × Fin 10, densityGrid bs p) = bs.length ∧
    max_density bs ≤ bs.length := by
  have hmass : (∑ p : Fin 10 × Fin 10, densityGrid bs p) = bs.length := by
    have := densityGrid_fold_mass bs (fun _ => 0)
    simpa [densityGrid] using this
  refine ⟨hmass, ?_⟩
  rw [max_density, ← hmass]
  exact Finset.sup_le (fun p _ =>
    Finset.single_le_sum (fun q _ => Nat.zero_le _) (Finset.mem_univ p))

/-! ## CrowdAnalytics.calculate_kinetic_energy
(src/engine/analytics.py lines 126-164)

The function reads only each tracker's `velocity` field; it is embedded
over the list of velocity pairs.  The history deque (`maxlen = 45`) is
embedded as a list that evicts its oldest element when an append would
exceed the capacity. -/

/-- `ke = (vx*vx + vy*vy) / 2.0` — the per-tracker simplified kinetic
energy. -/
def ke_of (v : ℚ × ℚ) : ℚ := (v.1 * v.1 + v.2 * v.2) / 2

/-- `current_ke`: 0 with no trackers, else the mean per-tracker energy. -/
def current_ke (vs : List (ℚ × ℚ)) : ℚ :=
  if vs.length = 0 then 0 else (vs.map ke_of).sum / (vs.length : ℚ)

/-- `deque.append` with `maxlen = KE_MOVING_AVG_WINDOW`: the oldest entry is
evicted when the append would exceed the capacity. -/
def pushKE (w : List ℚ) (x : ℚ) : List ℚ :=
  if KE_MOVING_AVG_WINDOW < (w ++ [x]).length then (w ++ [x]).tail else w ++ [x]

/-- `np.mean` of the history window. -/
def meanKE (l : List ℚ) : ℚ := l.sum / (l.length : ℚ)

/-- One call of `CrowdAnalytics.calculate_kinetic_energy`: returns
`(current_ke, moving_average, is_spike)` together with the updated history
window.  The spike flag requires a positive moving average AND at least 10
samples in the window, then compares `current_ke > moving_avg * spike_factor`. -/
def calcKE (w : List ℚ) (vs : List (ℚ × ℚ)) : ℚ × ℚ × Bool × List ℚ :=
  let cur := current_ke vs
  let w2 := pushKE w cur
  let avg := if 0 < w2.length then meanKE w2 else cur
  let spike :=
    if 0 < avg ∧ 10 ≤ w2.length then decide (avg * KE_SPIKE_FACTOR < cur)
    else false
  (cur, avg, spike, w2)

/-- The kinetic-energy history window after a sequence of frames, starting
from the empty deque of a fresh `CrowdAnalytics`. -/
def runKE (frames : List (List (ℚ × ℚ))) : List ℚ :=
  frames.foldl (fun w vs => (calcKE w vs).2.2.2) []

/-- Per-tracker energies are non-negative. -/
theorem ke_of_nonneg (v : ℚ × ℚ) : 0 ≤ ke_of v := by
  unfold ke_of
  apply div_nonneg
  · have h1 := mul_self_nonneg v.1
    have h2 := mul_self_nonneg v.2
    linarith
  · norm_num

/-- The current-frame energy is non-negative. -/
theorem current_ke_nonneg (vs : List (ℚ × ℚ)) : 0 ≤ current_ke vs := by
  unfold current_ke
  split
  · exact le_refl 0
  · apply div_nonneg
    · exact List.sum_nonneg (by
        intro x hx
        obtain ⟨v, _, rfl⟩ := List.mem_map.mp hx
        exact ke_of_nonneg v)
    · exact Nat.cast_nonneg _

/-- Everything in the pushed window comes from the old window or is the
pushed value. -/
theorem mem_pushKE_cases {w : List ℚ} {x y : ℚ} (h : y ∈ pushKE w x) :
    y ∈ w ∨ y = x := by
  unfold pushKE at h
  split at h
  · have : y ∈ w ++ [x] := List.mem_of_mem_tail h
    rcases List.mem_append.mp this with hw | hx
    · exact Or.inl hw
    · exact Or.inr (List.mem_singleton.mp hx)
  · rcases List.mem_append.mp h with hw | hx
    · exact Or.inl hw
    · exact Or.inr (List.mem_singleton.mp hx)

/-- The pushed value is always in the resulting window (eviction removes
the oldest entry, never the newest). -/
theorem mem_pushKE_self (w : List ℚ) (x : ℚ) : x ∈ pushKE w x := by
  unfold pushKE
  split
  case isTrue h =>
    cases w with
    | nil => simp [KE_MOVING_AVG_WINDOW] at h
    | cons a as => simp
  case isFalse h => simp

/-- Every entry of the history window of a run is non-negative. -/
theorem runKE_nonneg (frames : List (List (ℚ × ℚ))) :
    ∀ x ∈ runKE frames, 0 ≤ x := by
  suffices h : ∀ w : List ℚ, (∀ x ∈ w, 0 ≤ x) →
      ∀ x ∈ frames.foldl (fun w vs => (calcKE w vs).2.2.2) w, 0 ≤ x by
    exact h [] (by simp)
  induction frames with
  | nil => intro w hw; simpa using hw
  | cons fr frames ih =>
      intro w hw
      simp only [List.foldl_cons]
      apply ih
      intro x hx
      rcases mem_pushKE_cases hx with hmem | rfl
      · exact hw x hmem
      · exact current_ke_nonneg fr

/-- C4: for every sequence of per-frame kinetic-energy computations from a
fresh engine, the spike flag is false whenever the window (after pushing the
current value) holds fewer than 10 samples; once it holds at least 10
samples the spike flag is true exactly when
`current_ke > moving_average * spike_factor`. -/
theorem ke_spike_window_spec (hist : List (List (ℚ × ℚ))) (fr : List (ℚ × ℚ)) :
    ((calcKE (runKE hist) fr).2.2.2.length < 10 →
      (calcKE (runKE hist) fr).2.2.1 = false) ∧
    (10 ≤ (calcKE (runKE hist) fr).2.2.2.length →
      ((calcKE (runKE hist) fr).2.2.1 = true ↔
        (calcKE (runKE hist) fr).2.1 * KE_SPIKE_FACTOR < (calcKE (runKE hist) fr).1)) := by
  set w := runKE hist with hw
  have hwnn : ∀ x ∈ w, 0 ≤ x := runKE_nonneg hist
  simp only [calcKE]
  set cur := current_ke fr with hcur
  set w2 := pushKE w cur with hw2
  have hlen : 0 < w2.length := by
    have : cur ∈ w2 := mem_pushKE_self w cur
    exact List.length_pos.mpr (fun hnil => by simp [hnil] at this)
  have hw2nn : ∀ x ∈ w2, 0 ≤ x := by
    intro x hx
    rcases mem_pushKE_cases hx with hmem | rfl
    · exact hwnn x hmem
    · exact current_ke_nonneg fr
  simp only [if_pos hlen]
  constructor
  · intro hsmall
    rw [if_neg]
    intro ⟨_, hge⟩
    omega
  · intro hge
    by_cases hpos : 0 < meanKE w2
    · rw [if_pos ⟨hpos, hge⟩]
      simp
    · rw [if_neg (fun hc => hpos hc.1)]
      have havg : 0 ≤ meanKE w2 := by
        unfold meanKE
        apply div_nonneg (List.sum_nonneg hw2nn)
        positivity
      have havg0 : meanKE w2 = 0 := le_antisymm (not_lt.mp hpos) havg
      have hsum0 : w2.sum = 0 := by
        unfold meanKE at havg0
        have hne : (w2.length : ℚ) ≠ 0 := by
          positivity
        field_simp at havg0
        exact havg0
      have hcur0 : cur = 0 := by
        have hle : cur ≤ w2.sum :=
          List.single_le_sum hw2nn cur (mem_pushKE_self w cur)
        have : 0 ≤ cur := current_ke_nonneg fr
        rw [hsum0] at hle
        linarith
      constructor
      · intro h
        simp at h
      · intro h
        rw [havg0, hcur0] at h
        norm_num [KE_SPIKE_FACTOR] at h

/-- Witness for C4: a fresh engine processing its very first (empty) frame
has a 1-element window, so the spike flag is false. -/
theorem ke_spike_window_spec_witness :
    (calcKE (runKE []) []).2.2.2.length < 10 ∧
    (calcKE (runKE []) []).2.2.1 = false := by
  have hlen : (calcKE (runKE []) []).2.2.2.length < 10 := by
    simp [runKE, calcKE, pushKE, KE_MOVING_AVG_WINDOW]
  exact ⟨hlen, (ke_spike_window_spec [] []).1 hlen⟩

/-! ## KalmanBoxTracker conversions over the reals
(src/engine/tracking.py lines 111-137)

`convert_x_to_bbox` takes a square root, so the pair of conversions is
embedded over ℝ; the round-trip property (C2) is then exact. -/

/-- Embedding of `KalmanBoxTracker.convert_bbox_to_z([x1,y1,x2,y2])` over ℝ:
center, area and aspect ratio `(x, y, s, r)`. -/
noncomputable def convert_bbox_to_z (x1 y1 x2 y2 : ℝ) : ℝ × ℝ × ℝ × ℝ :=
  let w := x2 - x1
  let h := y2 - y1
  let x := x1 + w / 2
  let y := y1 + h / 2
  let s := w * h
  let r := w / h
  (x, y, s, r)

/-- Embedding of `KalmanBoxTracker.convert_x_to_bbox([x,y,s,r])` (score
omitted, as in every call site of the tracker): `w = sqrt(s*r)`,
`h = s/w`, corners from center and half-extents. -/
noncomputable def convert_x_to_bbox (m : ℝ × ℝ × ℝ × ℝ) : ℝ × ℝ × ℝ × ℝ :=
  let w := Real.sqrt (m.2.2.1 * m.2.2.2)
  let h := m.2.2.1 / w
  (m.1 - w / 2, m.2.1 - h / 2, m.1 + w / 2, m.2.1 + h / 2)

/-- C2: for every bbox with positive width and positive height, converting
to the measurement representation and back is the identity (exactly, over
the reals). -/
theorem conversion_round_trip (x1 y1 x2 y2 : ℝ) (hx : x1 < x2) (hy : y1 < y2) :
    convert_x_to_bbox (convert_bbox_to_z x1 y1 x2 y2) = (x1, y1, x2, y2) := by
  have hw : (0 : ℝ) < x2 - x1 := by linarith
  have hh : (0 : ℝ) < y2 - y1 := by linarith
  have hwne : x2 - x1 ≠ 0 := ne_of_gt hw
  have hhne : y2 - y1 ≠ 0 := ne_of_gt hh
  have hsr : ((x2 - x1) * (y2 - y1)) * ((x2 - x1) / (y2 - y1)) = (x2 - x1) ^ 2 := by
    field_simp
    ring
  have hsqrt :
      Real.sqrt (((x2 - x1) * (y2 - y1)) * ((x2 - x1) / (y2 - y1))) = x2 - x1 := by
    rw [hsr, Real.sqrt_sq hw.le]
  simp only [convert_x_to_bbox, convert_bbox_to_z, hsqrt, Prod.mk.injEq]
  refine ⟨by ring, ?_, by ring, ?_⟩
  all_goals field_simp
  all_goals ring

/-- Witness for C2: the round trip at the concrete bbox `(0, 0, 2, 1)`. -/
theorem conversion_round_trip_witness :
    convert_x_to_bbox (convert_bbox_to_z 0 0 2 1) = (0, 0, 2, 1) :=
  conversion_round_trip 0 0 2 1 (by norm_num) (by norm_num)

/-! ## CrowdAnalytics.calculate_motion_coherence
(src/engine/analytics.py lines 75-124)

The function reads only each tracker's `velocity` field; it is embedded
over the list of velocity pairs, with `math.atan2`, `math.cos/sin/sqrt`
and `math.degrees` over ℝ. -/

/-- `math.atan2(y, x)`: the argument of the complex number `x + i y`. -/
noncomputable def atan2 (y x : ℝ) : ℝ := Complex.arg ⟨x, y⟩

/-- `math.degrees`. -/
noncomputable def degrees (r : ℝ) : ℝ := r * 180 / Real.pi

/-- The `speed > 0.1` movement test of `calculate_motion_coherence`. -/
noncomputable def isMoving (v : ℝ × ℝ) : Bool :=
  decide ((0.1 : ℝ) < Real.sqrt (v.1 * v.1 + v.2 * v.2))

/-- Embedding of `CrowdAnalytics.calculate_motion_coherence(tracker_info)`:
0 with fewer than 2 trackers; collect the `atan2` angle of every tracker
moving faster than the epsilon; 0 with fewer than 2 angles; otherwise the
circular-statistics spread `degrees(sqrt(2 * (1 - R)))` with the
`circular_variance <= 0` clamp. -/
noncomputable def calculate_motion_coherence (vs : List (ℝ × ℝ)) : ℝ :=
  if vs.length < 2 then 0
  else
    let angles := (vs.filter isMoving).map (fun v => atan2 v.2 v.1)
    if angles.length < 2 then 0
    else
      let x_components := angles.map Real.cos
      let y_components := angles.map Real.sin
      let mean_x := x_components.sum / (x_components.length : ℝ)
      let mean_y := y_components.sum / (y_components.length : ℝ)
      let R := Real.sqrt (mean_x * mean_x + mean_y * mean_y)
      let circular_variance := 1 - R
      if circular_variance ≤ 0 then 0
      else degrees (Real.sqrt (2 * circular_variance))

/-- The coherence metric exactly as the spec words it: filter the moving
tracks first; 0 when fewer than 2 are moving; otherwise the circular mean
resultant length `R` of the moving tracks' angles gives
`degrees(sqrt(2 * (1 - R)))`, clamped to 0 when `1 - R ≤ 0`. -/
noncomputable def spec_motion_coherence (vs : List (ℝ × ℝ)) : ℝ :=
  let moving := vs.filter isMoving
  if moving.length < 2 then 0
  else
    let angles := moving.map (fun v => atan2 v.2 v.1)
    let mean_x := (angles.map Real.cos).sum / (angles.length : ℝ)
    let mean_y := (angles.map Real.sin).sum / (angles.length : ℝ)
    let R := Real.sqrt (mean_x * mean_x + mean_y * mean_y)
    if 1 - R ≤ 0 then 0
    else degrees (Real.sqrt (2 * (1 - R)))

/-- C8: the implemented coherence agrees with the spec formula on every
input — 0 when fewer than 2 tracks move faster than the epsilon (the
code's extra early return for fewer than 2 total tracks is subsumed,
since the moving tracks are a subset), otherwise
`degrees(sqrt(2 * (1 - R)))` with the variance clamp. -/
theorem motion_coherence_spec (vs : List (ℝ × ℝ)) :
    calculate_motion_coherence vs = spec_motion_coherence vs := by
  simp only [calculate_motion_coherence, spec_motion_coherence, List.length_map]
  by_cases h2 : vs.length < 2
  · have hm : (vs.filter isMoving).length < 2 :=
      lt_of_le_of_lt (List.length_filter_le _ _) h2
    simp [h2, hm]
  · simp only [if_neg h2]

/-! ## The SORT tracker (src/engine/tracking.py)

Embedding conventions for `KalmanBoxTracker` and `Sort`:

* The mean of the 7-dimensional filter state `[x, y, s, r, dx, dy, ds]` is
  carried exactly (`KState`).  `cv2.KalmanFilter.predict` advances the mean
  deterministically by the constant-velocity transition matrix, which is
  embedded directly; `cv2.KalmanFilter.correct` blends measurement and
  prediction through the gain computed from the covariance matrices
  maintained inside OpenCV, an external library — it is a parameter
  (`ExtOps.correct`), as are the two float-specific operations:
  `ExtOps.toBBox` for `convert_x_to_bbox` applied to a state (its square
  root has no exact rational embedding; its real embedding is
  `convert_x_to_bbox` above) and `ExtOps.isnanPos` for the
  `np.any(np.isnan(pos))` test on the predicted position (`PyFloat`
  semantics of that test are analysed separately via `removeInvalid`).
  Every theorem about the tracker holds for all instantiations of these
  parameters.
* `associate_detections_to_trackers` delegates the assignment either to
  `scipy.optimize.linear_sum_assignment` (an external library) or to a
  greedy float-matrix fallback; the association result is likewise a
  parameter (`AssocFn`).  The zero-tracks / zero-detections special case
  is part of `Sort.update` itself and is embedded concretely.
* Detections enter `Sort.update` as rows `[x1, y1, x2, y2, score]`; only
  `dets[i, :4]` is ever used, so a detection is embedded as its `BBoxQ`. -/

/-- Mean of the Kalman state `[x, y, s, r, dx, dy, ds]`
(center, area, aspect ratio, and their velocities). -/
structure KState where
  x : ℚ
  y : ℚ
  s : ℚ
  r : ℚ
  dx : ℚ
  dy : ℚ
  ds : ℚ
deriving DecidableEq, Repr, Inhabited

/-- `convert_bbox_to_z` over exact rationals, for the nondegenerate bboxes
reaching tracker creation and correction (behaviour at zero height is the
subject of `convert_bbox_to_z_py`). -/
def convert_bbox_to_z_q (b : BBoxQ) : ℚ × ℚ × ℚ × ℚ :=
  let w := b.x2 - b.x1
  let h := b.y2 - b.y1
  (b.x1 + w / 2, b.y1 + h / 2, w * h, w / h)

/-- One `KalmanBoxTracker`.  `history` holds the predicted bboxes appended
by `predict` and cleared by `update`. -/
structure Track where
  kstate : KState
  time_since_update : ℕ
  id : ℕ
  history : List BBoxQ
  hits : ℕ
  hit_streak : ℕ
  age : ℕ
deriving DecidableEq, Repr

/-- The external numeric operations of the tracker (see the section
comment): the OpenCV correction step and the two float-valued functions of
a state. -/
structure ExtOps where
  correct : KState → ℚ × ℚ × ℚ × ℚ → KState
  isnanPos : KState → Bool
  toBBox : KState → BBoxQ

/-- `KalmanBoxTracker.__init__(bbox)` with the next value of the
process-wide `KalmanBoxTracker.count` counter passed explicitly: the state
is the measurement of the bbox with zero velocities, all bookkeeping
counters start at 0, and the tracker receives `id = count` (the caller then
increments the counter). -/
def KalmanBoxTracker.initT (b : BBoxQ) (count : ℕ) : Track :=
  let z := convert_bbox_to_z_q b
  { kstate := ⟨z.1, z.2.1, z.2.2.1, z.2.2.2, 0, 0, 0⟩
    time_since_update := 0
    id := count
    history := []
    hits := 0
    hit_streak := 0
    age := 0 }

/-- `KalmanBoxTracker.predict()`: clamp the scale velocity when the
predicted area would be non-positive, advance the mean by the
constant-velocity transition matrix, increment `age`, reset `hit_streak`
when the previous step had no update, increment `time_since_update`, and
append the predicted bbox to the history. -/
def KalmanBoxTracker.predictT (ops : ExtOps) (t : Track) : Track :=
  let k0 := t.kstate
  let k1 := if k0.ds + k0.s ≤ 0 then { k0 with ds := 0 } else k0
  let k2 : KState :=
    ⟨k1.x + k1.dx, k1.y + k1.dy, k1.s + k1.ds, k1.r, k1.dx, k1.dy, k1.ds⟩
  { t with
    kstate := k2
    age := t.age + 1
    hit_streak := if 0 < t.time_since_update then 0 else t.hit_streak
    time_since_update := t.time_since_update + 1
    history := t.history ++ [ops.toBBox k2] }

/-- `KalmanBoxTracker.update(bbox)`: reset `time_since_update`, clear the
history, increment `hits` and `hit_streak`, and correct the state with the
measurement of the bbox. -/
def KalmanBoxTracker.updateT (ops : ExtOps) (t : Track) (b : BBoxQ) : Track :=
  { t with
    time_since_update := 0
    history := []
    hits := t.hits + 1
    hit_streak := t.hit_streak + 1
    kstate := ops.correct t.kstate (convert_bbox_to_z_q b) }

/-- `KalmanBoxTracker.get_state()`: the current bbox of the state. -/
def KalmanBoxTracker.get_stateT (ops : ExtOps) (t : Track) : BBoxQ :=
  ops.toBBox t.kstate

/-- State of a `Sort` instance, with the process-wide
`KalmanBoxTracker.count` class attribute threaded through explicitly. -/
structure SortState where
  max_age : ℕ
  min_hits : ℕ
  trackers : List Track
  frame_count : ℕ
  count : ℕ
deriving DecidableEq, Repr

/-- `Sort.__init__` (the pipeline constructs `Sort(max_age=30, min_hits=3,
iou_threshold=0.3)`); the counter starts at 0 for a fresh process. -/
def Sort.initS (max_age min_hits : ℕ) : SortState :=
  { max_age := max_age, min_hits := min_hits, trackers := [], frame_count := 0, count := 0 }

/-- Result of `associate_detections_to_trackers`:
`(matches, unmatched_detections, unmatched_trackers)` with matches as
(detection index, tracker index) pairs. -/
def AssocFn : Type :=
  List BBoxQ → List BBoxQ → List (ℕ × ℕ) × List ℕ × List ℕ

/-- In-place update of one list element (`self.trackers[m[1]].update(...)`). -/
def modifyAt (f : Track → Track) : ℕ → List Track → List Track
  | _, [] => []
  | 0, t :: ts => f t :: ts
  | n + 1, t :: ts => t :: modifyAt f n ts

/-- The reportability test of the result loop of `Sort.update` (line 302):
`time_since_update < 1` and (`hit_streak >= min_hits` or
`frame_count <= min_hits`). -/
def reportable (min_hits frame_count : ℕ) (t : Track) : Bool :=
  decide (t.time_since_update < 1) &&
    (decide (min_hits ≤ t.hit_streak) || decide (frame_count ≤ min_hits))

/-- The result loop of `Sort.update` (lines 298-311): iterate the tracker
list in reverse; append `(get_state(), id + 1)` to `ret` for every
reportable tracker; pop every tracker with `time_since_update > max_age`.
`List.foldr` processes the last tracker first, exactly like the
`reversed(self.trackers)` loop with its descending index bookkeeping. -/
def resultPass (ops : ExtOps) (frame_count min_hits max_age : ℕ)
    (ts : List Track) : List Track × List (BBoxQ × ℕ) :=
  ts.foldr
    (fun trk acc =>
      (if max_age < trk.time_since_update then acc.1 else trk :: acc.1,
       if reportable min_hits frame_count trk then
         acc.2 ++ [(KalmanBoxTracker.get_stateT ops trk, trk.id + 1)]
       else acc.2))
    ([], [])

/-- `Sort.update(dets)`: advance the frame count; predict every tracker;
pop (in reverse) the trackers whose predicted position fails the NaN
integrity test; associate detections to the surviving predictions (the
zero-trackers / zero-detections case short-circuits the association);
update each matched tracker with its detection's bbox; create a tracker
for each unmatched detection, consuming fresh IDs from the process-wide
counter; finally run the result loop.  Returns the new state and the `ret`
array of `([x1,y1,x2,y2], id + 1)` rows. -/
def Sort.update (ops : ExtOps) (assoc : AssocFn) (s : SortState)
    (dets : List BBoxQ) : SortState × List (BBoxQ × ℕ) :=
  let frame_count := s.frame_count + 1
  let preds := s.trackers.map (KalmanBoxTracker.predictT ops)
  let trks1 := removeByPred (fun t => ops.isnanPos t.kstate) preds
  let assocRes :=
    if 0 < trks1.length ∧ 0 < dets.length then
      assoc dets (trks1.map (KalmanBoxTracker.get_stateT ops))
    else
      (([] : List (ℕ × ℕ)), List.range dets.length, List.range trks1.length)
  let trks2 := assocRes.1.foldl
    (fun acc m =>
      modifyAt (fun t => KalmanBoxTracker.updateT ops t (dets.getD m.1 default)) m.2 acc)
    trks1
  let created := assocRes.2.1.foldl
    (fun (acc : List Track × ℕ) i =>
      (acc.1 ++ [KalmanBoxTracker.initT (dets.getD i default) acc.2], acc.2 + 1))
    (trks2, s.count)
  let rp := resultPass ops frame_count s.min_hits s.max_age created.1
  ({ s with trackers := rp.1, frame_count := frame_count, count := created.2 }, rp.2)

/-- The per-tracker record that `Sort.get_trackers` is meant to build. -/
structure TrackerInfo where
  id : ℕ
  bbox : BBoxQ
  velocity : ℚ × ℚ
  age : ℕ
  hits : ℕ
deriving DecidableEq, Repr

/-- Body of the `Sort.get_trackers` loop (lines 324-338).  For a tracker
with `time_since_update < 1` the source executes
`state = trk.get_state()[0]` and then `float(state[0])`: `get_state()`
returns a flat 4-element array, so `state` is a NumPy scalar and `state[0]`
raises `IndexError: invalid index to scalar variable` — the loop cannot
complete for any such tracker.  Trackers with `time_since_update >= 1` are
skipped.  The embedding returns `Except.error ()` on the raising branch. -/
def getTrackersLoop : List Track → Except Unit (List TrackerInfo)
  | [] => Except.ok []
  | t :: ts =>
      if t.time_since_update < 1 then Except.error ()
      else getTrackersLoop ts

/-- `Sort.get_trackers()` as written in the source: either every tracker
has `time_since_update >= 1` and the empty list is returned, or the first
tracker with `time_since_update < 1` raises. -/
def Sort.get_trackers (s : SortState) : Except Unit (List TrackerInfo) :=
  getTrackersLoop s.trackers

/-- `Sort.get_trackers` as its docstring and the spec intend it (and as the
original SORT code it was adapted from behaves, where `get_state()` keeps a
`(1,4)` shape): one info record per tracker with `time_since_update < 1`,
exposing the id, the current bbox and the `(dx, dy)` velocity components of
the state. -/
def Sort.get_trackers_intended (ops : ExtOps) (s : SortState) : List TrackerInfo :=
  (s.trackers.filter (fun t => decide (t.time_since_update < 1))).map
    (fun t =>
      { id := t.id
        bbox := KalmanBoxTracker.get_stateT ops t
        velocity := (t.kstate.dx, t.kstate.dy)
        age := t.age
        hits := t.hits })

/-! ## Lifecycle and ID lemmas for Sort.update -/

/-- A SORT run: fold `Sort.update` over the per-frame detection lists. -/
def runSort (ops : ExtOps) (assoc : AssocFn) : SortState → List (List BBoxQ) → SortState
  | s, [] => s
  | s, f :: fs => runSort ops assoc (Sort.update ops assoc s f).1 fs

/-- The kept trackers of the result loop are exactly those with
`time_since_update <= max_age`, in order. -/
theorem resultPass_fst (ops : ExtOps) (fc mh ma : ℕ) (ts : List Track) :
    (resultPass ops fc mh ma ts).1 =
      ts.filter (fun t => ! decide (ma < t.time_since_update)) := by
  induction ts with
  | nil => rfl
  | cons t ts ih =>
      show (if ma < t.time_since_update then (resultPass ops fc mh ma ts).1
            else t :: (resultPass ops fc mh ma ts).1) = _
      rw [List.filter_cons]
      by_cases h : ma < t.time_since_update
      · simp [h, ih]
      · simp [h, ih]

/-- The `ret` rows of the result loop are the reportable trackers in
reversed list order, each contributing `(get_state(), id + 1)`. -/
theorem resultPass_snd (ops : ExtOps) (fc mh ma : ℕ) (ts : List Track) :
    (resultPass ops fc mh ma ts).2 =
      (ts.reverse.filter (reportable mh fc)).map
        (fun t => (KalmanBoxTracker.get_stateT ops t, t.id + 1)) := by
  induction ts with
  | nil => rfl
  | cons t ts ih =>
      show (if reportable mh fc t then
              (resultPass ops fc mh ma ts).2 ++
                [(KalmanBoxTracker.get_stateT ops t, t.id + 1)]
            else (resultPass ops fc mh ma ts).2) = _
      rw [List.reverse_cons, List.filter_append, List.map_append]
      by_cases h : reportable mh fc t
      · simp [h, ih]
      · simp [h, ih]

/-- C5: after any frame step, every track in the active collection has
`time_since_update <= max_age` — equivalently, a track unmatched for
`max_age + 1` consecutive frames (whose counter has then reached
`max_age + 1`) is gone by the end of that frame's result loop. -/
theorem update_time_since_update_le (ops : ExtOps) (assoc : AssocFn)
    (s : SortState) (dets : List BBoxQ) :
    ∀ t ∈ (Sort.update ops assoc s dets).1.trackers,
      t.time_since_update ≤ s.max_age := by
  intro t ht
  simp only [Sort.update, resultPass_fst] at ht
  have := List.of_mem_filter ht
  simpa using this

/-- Fixed numeric stand-ins used to evaluate concrete runs: the external
correction, NaN-test and bbox conversion do not matter for the lifecycle
facts below, so any instantiation will do. -/
def ops0 : ExtOps :=
  { correct := fun k _ => k
    isnanPos := fun _ => false
    toBBox := fun _ => ⟨0, 0, 50, 50⟩ }

/-- A degenerate association oracle (never consulted in the concrete runs
below, which always hit the zero-trackers short-circuit). -/
def assoc0 : AssocFn := fun _ _ => ([], [], [])

/-- First test detection box of `test_tracking()` in the source. -/
def b0 : BBoxQ := ⟨100, 100, 150, 200⟩

/-- Witness for C5: one frame with one detection from a fresh tracker
leaves only tracks within the age bound. -/
theorem update_time_since_update_le_witness :
    ((Sort.update ops0 assoc0 (Sort.initS 30 3) [b0]).1.trackers.all
      (fun t => decide (t.time_since_update ≤ 30))) = true :=
  List.all_eq_true.mpr fun t ht =>
    decide_eq_true (update_time_since_update_le ops0 assoc0 (Sort.initS 30 3) [b0] t ht)

/-! ## ID management (C9) -/

/-- `predict` never touches the id. -/
@[simp] theorem predictT_id (ops : ExtOps) (t : Track) :
    (KalmanBoxTracker.predictT ops t).id = t.id := rfl

/-- `update` never touches the id. -/
@[simp] theorem updateT_id (ops : ExtOps) (t : Track) (b : BBoxQ) :
    (KalmanBoxTracker.updateT ops t b).id = t.id := rfl

/-- Modifying one element with an id-preserving function preserves the id
list. -/
theorem modifyAt_map_id (f : Track → Track) (hf : ∀ t, (f t).id = t.id) :
    ∀ (n : ℕ) (l : List Track), (modifyAt f n l).map Track.id = l.map Track.id := by
  intro n l
  induction l generalizing n with
  | nil => cases n <;> rfl
  | cons t ts ih =>
      cases n with
      | zero => simp [modifyAt, hf]
      | succ m => simp [modifyAt, ih m]

/-- The matched-tracker update loop preserves the id list. -/
theorem matchFold_map_id (ops : ExtOps) (dets : List BBoxQ) :
    ∀ (ms : List (ℕ × ℕ)) (l : List Track),
      ((ms.foldl
        (fun acc m =>
          modifyAt (fun t => KalmanBoxTracker.updateT ops t (dets.getD m.1 default)) m.2 acc)
        l).map Track.id) = l.map Track.id := by
  intro ms
  induction ms with
  | nil => intro l; rfl
  | cons m ms ih =>
      intro l
      rw [List.foldl_cons, ih]
      exact modifyAt_map_id
        (fun t => KalmanBoxTracker.updateT ops t (dets.getD m.1 default))
        (fun t => rfl) m.2 l

/-- The trackers appended by the creation loop, with the counter values
they consume. -/
def createdList (dets : List BBoxQ) : List ℕ → ℕ → List Track
  | [], _ => []
  | i :: is, cnt =>
      KalmanBoxTracker.initT (dets.getD i default) cnt :: createdList dets is (cnt + 1)

/-- The creation fold appends `createdList` and advances the counter by the
number of unmatched detections. -/
theorem create_fold_spec (dets : List BBoxQ) :
    ∀ (idxs : List ℕ) (l : List Track) (cnt : ℕ),
      idxs.foldl
        (fun (acc : List Track × ℕ) i =>
          (acc.1 ++ [KalmanBoxTracker.initT (dets.getD i default) acc.2], acc.2 + 1))
        (l, cnt) =
      (l ++ createdList dets idxs cnt, cnt + idxs.length) := by
  intro idxs
  induction idxs with
  | nil => intro l cnt; simp [createdList]
  | cons i is ih =>
      intro l cnt
      rw [List.foldl_cons, ih]
      simp only [createdList, Prod.mk.injEq, List.length_cons]
      constructor
      · simp
      · omega

/-- The ids consumed by the creation loop are consecutive from the counter. -/
theorem createdList_map_id (dets : List BBoxQ) :
    ∀ (idxs : List ℕ) (cnt : ℕ),
      (createdList dets idxs cnt).map Track.id = List.range' cnt idxs.length := by
  intro idxs
  induction idxs with
  | nil => intro cnt; rfl
  | cons i is ih =>
      intro cnt
      rw [createdList, List.map_cons, ih, List.length_cons, List.range'_succ cnt is.length 1]
      rfl

/-- The counter bound and distinctness of active ids, the invariant that
`Sort.update` maintains. -/
def IdInvariant (s : SortState) : Prop :=
  (∀ x ∈ s.trackers.map Track.id, x < s.count) ∧ (s.trackers.map Track.id).Nodup

/-- One frame step preserves the id invariant, never decreases the counter,
and leaves the ids of the tracks created during the step (those at or above
the entry counter) in strictly increasing order. -/
theorem update_step_ids (ops : ExtOps) (assoc : AssocFn) (s : SortState)
    (dets : List BBoxQ) (h : IdInvariant s) :
    IdInvariant (Sort.update ops assoc s dets).1 ∧
    s.count ≤ (Sort.update ops assoc s dets).1.count ∧
    ((((Sort.update ops assoc s dets).1.trackers.filter
        (fun t => decide (s.count ≤ t.id))).map Track.id).Pairwise (· < ·)) := by
  obtain ⟨hlt, hnd⟩ := h
  simp only [Sort.update, create_fold_spec, resultPass_fst]
  set preds := s.trackers.map (KalmanBoxTracker.predictT ops) with hpreds
  set trks1 := removeByPred (fun t => ops.isnanPos t.kstate) preds with htrks1
  set mres :=
    (if 0 < trks1.length ∧ 0 < dets.length then
      assoc dets (trks1.map (KalmanBoxTracker.get_stateT ops))
    else
      (([] : List (ℕ × ℕ)), List.range dets.length, List.range trks1.length)) with hmres
  set trks2 := mres.1.foldl
    (fun acc m =>
      modifyAt (fun t => KalmanBoxTracker.updateT ops t (dets.getD m.1 default)) m.2 acc)
    trks1 with htrks2
  -- id lists of the intermediate stages
  have hpredsid : preds.map Track.id = s.trackers.map Track.id := by
    rw [hpreds, List.map_map]
    rfl
  have htrks1sub :
      List.Sublist (trks1.map Track.id) (s.trackers.map Track.id) := by
    rw [htrks1, removeByPred_eq_filter, ← hpredsid]
    exact List.Sublist.map Track.id (List.filter_sublist preds)
  have htrks2id : trks2.map Track.id = trks1.map Track.id :=
    matchFold_map_id ops dets mres.1 trks1
  have htrks2lt : ∀ x ∈ trks2.map Track.id, x < s.count := by
    rw [htrks2id]
    intro x hx
    exact hlt x (htrks1sub.mem hx)
  have htrks2nd : (trks2.map Track.id).Nodup := by
    rw [htrks2id]
    exact hnd.sublist htrks1sub
  -- the created tracks
  set newts := createdList dets mres.2.1 s.count with hnew
  have hnewid : newts.map Track.id = List.range' s.count mres.2.1.length :=
    createdList_map_id dets mres.2.1 s.count
  have hcombined_nd : ((trks2 ++ newts).map Track.id).Nodup := by
    rw [List.map_append]
    refine List.Nodup.append htrks2nd ?_ ?_
    · rw [hnewid]
      exact List.nodup_range' s.count mres.2.1.length
    · intro x hx hx2
      have h1 := htrks2lt x hx
      have h2 := (List.mem_range'_1.mp (hnewid ▸ hx2)).1
      omega
  have hcombined_lt :
      ∀ x ∈ (trks2 ++ newts).map Track.id, x < s.count + mres.2.1.length := by
    rw [List.map_append]
    intro x hx
    rcases List.mem_append.mp hx with hx | hx
    · have := htrks2lt x hx
      omega
    · exact (List.mem_range'_1.mp (hnewid ▸ hx)).2
  -- the kept trackers after the result loop
  set kept := (trks2 ++ newts).filter
    (fun t => ! decide (s.max_age < t.time_since_update)) with hkept
  have hkeptsub :
      List.Sublist (kept.map Track.id) ((trks2 ++ newts).map Track.id) :=
    List.Sublist.map Track.id (List.filter_sublist _)
  simp only [IdInvariant]
  refine ⟨⟨?_, ?_⟩, ?_, ?_⟩
  · intro x hx
    exact hcombined_lt x (hkeptsub.mem hx)
  · exact hcombined_nd.sublist hkeptsub
  · omega
  · -- new ids in the kept list are a sublist of the issued range
    have hsub1 :
        List.Sublist (kept.filter (fun t => decide (s.count ≤ t.id)))
          ((trks2 ++ newts).filter (fun t => decide (s.count ≤ t.id))) :=
      List.Sublist.filter _ (List.filter_sublist _)
    have htrks2none : trks2.filter (fun t => decide (s.count ≤ t.id)) = [] := by
      rw [List.filter_eq_nil_iff]
      intro t ht
      have : t.id < s.count := htrks2lt t.id (List.mem_map_of_mem Track.id ht)
      simp
      omega
    have heq : (trks2 ++ newts).filter (fun t => decide (s.count ≤ t.id)) =
        newts.filter (fun t => decide (s.count ≤ t.id)) := by
      rw [List.filter_append, htrks2none, List.nil_append]
    rw [heq] at hsub1
    have hsub2 :
        List.Sublist ((kept.filter (fun t => decide (s.count ≤ t.id))).map Track.id)
          (List.range' s.count mres.2.1.length) := by
      rw [← hnewid]
      exact List.Sublist.trans (List.Sublist.map Track.id hsub1)
        (List.Sublist.map Track.id (List.filter_sublist newts))
    exact List.Pairwise.sublist hsub2 (List.pairwise_lt_range' _ _)

/-- Every row of the returned track array comes from a kept tracker and
reports `id + 1`. -/
theorem update_ret_ids (ops : ExtOps) (assoc : AssocFn) (s : SortState)
    (dets : List BBoxQ) :
    ∀ p ∈ (Sort.update ops assoc s dets).2,
      ∃ t ∈ (Sort.update ops assoc s dets).1.trackers, p.2 = t.id + 1 := by
  intro p hp
  simp only [Sort.update, resultPass_snd, resultPass_fst] at hp ⊢
  obtain ⟨t, ht, rfl⟩ := List.mem_map.mp hp
  have hmem := (List.mem_filter.mp ht).1
  have hrep := (List.mem_filter.mp ht).2
  refine ⟨t, ?_, rfl⟩
  refine List.mem_filter.mpr ⟨List.mem_reverse.mp hmem, ?_⟩
  have htsu : t.time_since_update < 1 := by
    unfold reportable at hrep
    simp only [Bool.and_eq_true, decide_eq_true_eq] at hrep
    exact hrep.1
  simp only [Bool.not_eq_true', decide_eq_false_iff_not]
  omega

/-- A fresh tracker state satisfies the id invariant. -/
theorem initS_IdInvariant (ma mh : ℕ) : IdInvariant (Sort.initS ma mh) := by
  simp [IdInvariant, Sort.initS]

/-- A whole run preserves the id invariant and never decreases the counter. -/
theorem runSort_inv (ops : ExtOps) (assoc : AssocFn) :
    ∀ (frames : List (List BBoxQ)) (s : SortState), IdInvariant s →
      IdInvariant (runSort ops assoc s frames) ∧
        s.count ≤ (runSort ops assoc s frames).count := by
  intro frames
  induction frames with
  | nil => intro s h; exact ⟨h, le_refl _⟩
  | cons f fs ih =>
      intro s h
      have hstep := update_step_ids ops assoc s f h
      have hr := ih _ hstep.1
      exact ⟨hr.1, le_trans hstep.2.1 hr.2⟩

/-- C9: along any run from a fresh tracker, no two simultaneously active
tracks share an id; every active id is below the process-wide counter (so a
deleted id can never be issued again); the counter never decreases across a
further frame step; the ids issued during that step appear in strictly
increasing order; and every id in the reported track array is a raw tracker
id offset by 1, hence positive. -/
theorem tracker_id_management (ops : ExtOps) (assoc : AssocFn) (ma mh : ℕ)
    (frames : List (List BBoxQ)) (dets : List BBoxQ) :
    (((runSort ops assoc (Sort.initS ma mh) frames).trackers.map Track.id).Nodup) ∧
    (∀ t ∈ (runSort ops assoc (Sort.initS ma mh) frames).trackers,
        t.id < (runSort ops assoc (Sort.initS ma mh) frames).count) ∧
    ((runSort ops assoc (Sort.initS ma mh) frames).count ≤
      (Sort.update ops assoc (runSort ops assoc (Sort.initS ma mh) frames) dets).1.count) ∧
    ((((Sort.update ops assoc (runSort ops assoc (Sort.initS ma mh) frames) dets).1.trackers.filter
        (fun t => decide ((runSort ops assoc (Sort.initS ma mh) frames).count ≤ t.id))).map
        Track.id).Pairwise (· < ·)) ∧
    (∀ p ∈ (Sort.update ops assoc (runSort ops assoc (Sort.initS ma mh) frames) dets).2,
        0 < p.2 ∧
        ∃ t ∈ (Sort.update ops assoc
            (runSort ops assoc (Sort.initS ma mh) frames) dets).1.trackers,
          p.2 = t.id + 1) := by
  have hrun := runSort_inv ops assoc frames _ (initS_IdInvariant ma mh)
  have hstep := update_step_ids ops assoc _ dets hrun.1
  refine ⟨hrun.1.2, ?_, hstep.2.1, hstep.2.2, ?_⟩
  · intro t ht
    exact hrun.1.1 t.id (List.mem_map_of_mem _ ht)
  · intro p hp
    obtain ⟨t, htmem, hpt⟩ := update_ret_ids ops assoc _ dets p hp
    refine ⟨by omega, t, htmem, hpt⟩

/-- Witness for C9: the first frame of a fresh tracker reports one track
(the grace period applies) and its reported id is positive. -/
theorem tracker_id_management_witness :
    ((Sort.update ops0 assoc0 (runSort ops0 assoc0 (Sort.initS 30 3) []) [b0]).2.all
      (fun p => decide (0 < p.2))) = true :=
  List.all_eq_true.mpr fun p hp =>
    decide_eq_true
      ((tracker_id_management ops0 assoc0 30 3 [] [b0]).2.2.2.2 p hp).1

/-! ## C1: the list handed to the Analytics Engine -/

/-- General characterization of the `get_trackers` loop as written: it
raises exactly when some tracker has `time_since_update < 1`, and otherwise
returns the empty list — it can never hand the analytics engine a
non-empty list. -/
theorem getTrackersLoop_spec (l : List Track) :
    (getTrackersLoop l = Except.error () ↔ ∃ t ∈ l, t.time_since_update < 1) ∧
    (getTrackersLoop l = Except.ok [] ↔ ∀ t ∈ l, ¬ t.time_since_update < 1) := by
  induction l with
  | nil => simp [getTrackersLoop]
  | cons t ts ih =>
      by_cases h : t.time_since_update < 1
      · simp [getTrackersLoop, h, ih.1, ih.2]
        exact ⟨Or.inl (by omega),
          fun hne => absurd (by omega : t.time_since_update = 0) hne⟩
      · simp [getTrackersLoop, h, ih.1, ih.2]
        exact ⟨fun h0 => absurd h0 (by omega), fun _ => by omega⟩

/-- The tracker state after four empty frames and one frame with one
detection: one track created on frame 5, never updated since creation,
`frame_count = 5 > min_hits = 3`. -/
def s5 : SortState := runSort ops0 assoc0 (Sort.initS 30 3) [[], [], [], [], [b0]]

/-- C1 (evaluation at the failing input): after four empty frames and one
detection frame, the single active track has `time_since_update = 0` but
`hit_streak = 0 < min_hits` with `frame_count = 5 > min_hits`, so no track
satisfies the reportability predicate — yet `get_trackers` does not return
the (empty) reportable list: the track enters the `time_since_update < 1`
branch, whose scalar indexing `state[0]` raises, so the analytics engine
receives an IndexError instead of a track list. -/
theorem get_trackers_failing_input :
    s5.trackers.map (fun t => (t.id, t.time_since_update, t.hit_streak)) = [(0, 0, 0)] ∧
    s5.frame_count = 5 ∧
    s5.min_hits = 3 ∧
    s5.trackers.all (reportable s5.min_hits s5.frame_count) = false ∧
    Sort.get_trackers s5 = Except.error () ∧
    (Sort.get_trackers_intended ops0 s5).map TrackerInfo.id = [0] := by
  refine ⟨?_, ?_, ?_, ?_, ?_, ?_⟩ <;> rfl

end Argus
